import Mathlib

/-!
Shallow embedding of the MLX90393 MicroPython driver's register-access core
(`micropython_mlx90393/mlx90393.py`): the `CBits` bit-field descriptor, the
`RegisterStructCMD` whole-register descriptor, and the `MLX90393` device's
`gain` / `_hall` settings.

The I2C bus is modelled as a scripted queue of responses (`DevState.responses`),
a trace of payloads written to the bus (`DevState.written`), and the device's
`_status_last` attribute.  Python integers in the register paths are
nonnegative, so register arithmetic is carried out on `Nat`; each spot where
Python could raise (`bytes(...)` element range checks, `int.to_bytes`
overflow, `struct.unpack` length mismatch) is modelled by `Option`.
-/

/-- Read-register command opcode, `_CMD_RR = const(0b01010000)`. -/
def _CMD_RR : Nat := 0b01010000

/-- Write-register command opcode, `_CMD_WR = const(0b01100000)`. -/
def _CMD_WR : Nat := 0b01100000

/-- Device state visible to the descriptors: the scripted upcoming bus
responses, the trace of payloads written to the bus so far, and the device's
`_status_last` attribute (`None` after `__init__`). -/
structure DevState where
  responses : List (List Nat)
  written : List (List Nat)
  status_last : Option Nat
deriving DecidableEq, Repr

/-- `obj._i2c.writeto(obj._address, payload)`: the payload is appended to the
bus trace. -/
def writeto (st : DevState) (payload : List Nat) : DevState :=
  { st with written := st.written ++ [payload] }

/-- `obj._i2c.readfrom(obj._address, n)`: pops the next scripted response,
which must consist of exactly `n` bytes (a short or missing response is a
modelled bus failure). -/
def readfrom (st : DevState) (n : Nat) : Option (List Nat × DevState) :=
  match st.responses with
  | [] => none
  | r :: rest => if r.length = n then some (r, { st with responses := rest }) else none

/-- Python `bytes([...])` / `bytearray` item assignment: every element must be
in `0..255`, otherwise a `ValueError` is raised. -/
def checkBytes (l : List Nat) : Option (List Nat) :=
  if l.all (fun b => b < 256) then some l else none

/-- Python's infinite-precision `reg & ~mask` on a nonnegative `reg`: clears
the bits of `mask` out of `reg` (line 97, `reg &= ~self.bit_mask`). -/
def and_not (reg mask : Nat) : Nat :=
  reg ^^^ (reg &&& mask)

/-- Python `reg.to_bytes(len, "big")`: `len` big-endian bytes, raising
`OverflowError` when `reg` does not fit. -/
def to_bytes_be (reg : Nat) (len : Nat) : Option (List Nat) :=
  if reg < 256 ^ len then
    some ((List.range len).map fun i => (reg >>> (8 * (len - 1 - i))) &&& 255)
  else none

/-- The byte-assembly loop shared by both descriptor paths (lines 75-76 and
95-96): `for i in order: reg = (reg << 8) | mem_value[i]`. -/
def assembleLoop (mem : List Nat) (order : List Nat) : Nat :=
  order.foldl (fun reg i => (reg <<< 8) ||| mem.getD i 0) 0

/-- Byte iteration order of `CBits.__get__` (lines 72-74):
`order = range(len(mem_value) - 1, -1, -1); if not lsb_first: order = reversed(order)`. -/
def get_order (n : Nat) (lsb_first : Bool) : List Nat :=
  let order := (List.range n).reverse
  if !lsb_first then order.reverse else order

/-- Byte iteration order of `CBits.__set__` (lines 92-94):
`order = range(len(memory_value) - 1, -1, -1); if not lsb_first: order = range(0, len(memory_value))`. -/
def set_order (n : Nat) (lsb_first : Bool) : List Nat :=
  let order := (List.range n).reverse
  if !lsb_first then List.range n else order

/-- The `CBits` descriptor's fields, as set by `CBits.__init__` (lines 40-56).
The source's misspelt attribute names (`star_bit`, `lenght`) are kept. -/
structure CBits where
  bit_mask : Nat
  register : Nat
  star_bit : Nat
  lenght : Nat
  lsb_first : Bool
  cmd_read : Nat
  cmd_write : Nat
deriving DecidableEq, Repr

/-- `CBits.__init__(num_bits, register_address, start_bit, register_width=2,
lsb_first=True, cmd_read=None, cmd_write=None)`. -/
def CBits.init (num_bits register_address start_bit : Nat) (register_width : Nat)
    (lsb_first : Bool) (cmd_read cmd_write : Nat) : CBits :=
  { bit_mask := ((1 <<< num_bits) - 1) <<< start_bit
    register := register_address
    star_bit := start_bit
    lenght := register_width + 1
    lsb_first := lsb_first
    cmd_read := cmd_read
    cmd_write := cmd_write }

/-- The register value assembled by `CBits.__get__` from a raw response
`data`: drop the leading status byte, then run the assembly loop in the
get-path order (lines 69-76). -/
def CBits.assembled_get (c : CBits) (data : List Nat) : Nat :=
  let mem_value := data.drop 1
  assembleLoop mem_value (get_order mem_value.length c.lsb_first)

/-- The value returned by `CBits.__get__` given raw response `data`
(lines 69-80): `reg = (reg & self.bit_mask) >> self.star_bit`. -/
def CBits.get_value (c : CBits) (data : List Nat) : Nat :=
  (c.assembled_get data &&& c.bit_mask) >>> c.star_bit

/-- The register value assembled by `CBits.__set__` from a raw response
`data` (lines 89-96). -/
def CBits.assembled_set (c : CBits) (data : List Nat) : Nat :=
  let memory_value := data.drop 1
  assembleLoop memory_value (set_order memory_value.length c.lsb_first)

/-- The merged register value computed by `CBits.__set__` (lines 97-100):
`reg &= ~self.bit_mask; value <<= self.star_bit; reg |= value`. -/
def CBits.set_reg_value (c : CBits) (data : List Nat) (value : Nat) : Nat :=
  and_not (c.assembled_set data) c.bit_mask ||| (value <<< c.star_bit)

/-- `CBits.__get__` (lines 58-80): write the read command, read
`self.lenght` bytes, extract the field.  `obj._status_last` is NOT touched on
this path. -/
def CBits.get_op (c : CBits) (st : DevState) : Option (Nat × DevState) :=
  match checkBytes [c.cmd_read, c.register <<< 2] with
  | none => none
  | some payload =>
    let st0 := writeto st payload
    match readfrom st0 c.lenght with
    | none => none
    | some (data, st1) => some (c.get_value data, st1)

/-- `CBits.__set__` (lines 82-113): read-modify-write.  Read the current
register, merge the new field value, encode `self.lenght - 1` big-endian
bytes, send `[cmd_write, reg[0], reg[1], register << 2]` (built by indexed
assignment into a zero-filled `bytearray(self.lenght + 1)`), read the
response, and store its first byte in `obj._status_last`. -/
def CBits.set_op (c : CBits) (st : DevState) (value : Nat) : Option DevState :=
  match checkBytes [c.cmd_read, c.register <<< 2] with
  | none => none
  | some payload0 =>
    let st0 := writeto st payload0
    match readfrom st0 c.lenght with
    | none => none
    | some (data, st1) =>
      let reg := c.set_reg_value data value
      match to_bytes_be reg (c.lenght - 1) with
      | none => none
      | some regb =>
        match checkBytes (((((List.replicate (c.lenght + 1) 0).set 0 c.cmd_write).set 3
            (c.register <<< 2)).set 1 (regb.getD 0 0)).set 2 (regb.getD 1 0)) with
        | none => none
        | some payload =>
          let st2 := writeto st1 payload
          match readfrom st2 c.lenght with
          | none => none
          | some (data2, st3) => some { st3 with status_last := some (data2.getD 0 0) }

/-- `struct.calcsize` for the standard-size format characters used with an
explicit byte-order prefix (byte-order characters contribute no bytes). -/
def charSize (ch : Char) : Nat :=
  if ch = 'B' ∨ ch = 'b' then 1
  else if ch = 'H' ∨ ch = 'h' then 2
  else if ch = 'I' ∨ ch = 'i' ∨ ch = 'f' then 4
  else if ch = 'Q' ∨ ch = 'q' ∨ ch = 'd' then 8
  else 0

/-- `struct.calcsize(form)`. -/
def calcsize (form : String) : Nat :=
  (form.data.map charSize).sum

/-- `struct.unpack(">BH", data)`: requires exactly 3 bytes; yields the first
byte and the big-endian unsigned 16-bit integer from the remaining two. -/
def unpack_BH (data : List Nat) : Option (Nat × Nat) :=
  if data.length = 3 then some (data.getD 0 0, data.getD 1 0 * 256 + data.getD 2 0)
  else none

/-- The `RegisterStructCMD` descriptor's fields (lines 121-134). -/
structure RegisterStructCMD where
  format : String
  register : Nat
  lenght : Nat
  cmd_read : Nat
  cmd_write : Nat
deriving DecidableEq, Repr

/-- `RegisterStructCMD.__init__(register_address, form, cmd_read, cmd_write)`:
`self.lenght = struct.calcsize(form) + 1` (+1 for the mandatory status byte). -/
def RegisterStructCMD.init (register_address : Nat) (form : String)
    (cmd_read cmd_write : Nat) : RegisterStructCMD :=
  { format := form
    register := register_address
    lenght := calcsize form + 1
    cmd_read := cmd_read
    cmd_write := cmd_write }

/-- `RegisterStructCMD.__get__` (lines 136-149): write
`bytes([cmd_read, register << 2])`, read `self.lenght` bytes, then
`obj._status_last, val = struct.unpack(">BH", data)` — the fixed format,
whatever `self.format` holds. -/
def RegisterStructCMD.get_op (r : RegisterStructCMD) (st : DevState) :
    Option (Nat × DevState) :=
  match checkBytes [r.cmd_read, r.register <<< 2] with
  | none => none
  | some payload =>
    let st0 := writeto st payload
    match readfrom st0 r.lenght with
    | none => none
    | some (data, st1) =>
      match unpack_BH data with
      | none => none
      | some (status, val) => some (val, { st1 with status_last := some status })

/-- `RegisterStructCMD.__set__` (lines 151-165): write
`bytes([cmd_write, value >> 8, value & 0xFF, register << 2])`, read
`self.lenght` bytes, store the first response byte in `obj._status_last`. -/
def RegisterStructCMD.set_op (r : RegisterStructCMD) (st : DevState) (value : Nat) :
    Option DevState :=
  match checkBytes [r.cmd_write, value >>> 8, value &&& 0xFF, r.register <<< 2] with
  | none => none
  | some payload =>
    let st0 := writeto st payload
    match readfrom st0 r.lenght with
    | none => none
    | some (data, st1) => some { st1 with status_last := some (data.getD 0 0) }

/-- `_gain = CBits(3, 0x00, 4, 2, False, _CMD_RR, _CMD_WR)` (line 262). -/
def MLX90393._gain : CBits :=
  CBits.init 3 0x00 4 2 false _CMD_RR _CMD_WR

/-- `_hall = CBits(4, 0x00, 0, 2, False, _CMD_RR, _CMD_WR)` (line 263). -/
def MLX90393._hall : CBits :=
  CBits.init 4 0x00 0 2 false _CMD_RR _CMD_WR

/-- The ordered gain label table of the `gain` property getter (lines 290-299). -/
def gain_values : List String :=
  [("GAIN_5X"), ("GAIN_4X"), ("GAIN_3X"), ("GAIN_2_5X"),
   ("GAIN_2X"), ("GAIN_1_67X"), ("GAIN_1_33X"), ("GAIN_1X")]

/-- The `gain` property getter (lines 270-301) as a function of the raw bus
response to the `_gain` bit-field read: `return gain_values[self._gain]`
(an out-of-range index would raise `IndexError`, modelled by `none`). -/
def MLX90393.gain_getter (data : List Nat) : Option String :=
  gain_values[MLX90393._gain.get_value data]?

/-- The `gain` property setter (lines 303-307):
`if value not in range(1, 8): raise ValueError("Invalid GAIN setting")`,
otherwise `self._gain = value`.  The first component carries a raised
exception message (`ValueError`, or a modelled bus failure inside the
descriptor write); the second the device state the caller observes after the
call. -/
def MLX90393.gain_setter (st : DevState) (value : Int) : Option String × DevState :=
  if ¬(1 ≤ value ∧ value < 8) then (some ("Invalid GAIN setting"), st)
  else
    match CBits.set_op MLX90393._gain st value.toNat with
    | some st1 => (none, st1)
    | none => (some ("BusError"), st)

/-- Modelled from the claim's register-bus semantics (C6): a write command
`[WRITE_opcode, hi, lo, register_address << 2]` stores the two data bytes at
that register; anything else leaves the register file unchanged. -/
def regStore (regs : Nat → Nat × Nat) (payload : List Nat) : Nat → Nat × Nat :=
  match payload with
  | [op, hi, lo, ra] =>
    fun r => if op = _CMD_WR ∧ r <<< 2 = ra then (hi, lo) else regs r
  | _ => regs

/-! ## Helper lemmas -/

theorem lor_lt_pow {x y n : Nat} (hx : x < 2 ^ n) (hy : y < 2 ^ n) : x ||| y < 2 ^ n :=
  Nat.bitwise_lt hx hy

theorem and_not_lt {reg n : Nat} (mask : Nat) (hx : reg < 2 ^ n) : and_not reg mask < 2 ^ n :=
  Nat.bitwise_lt hx (Nat.lt_of_le_of_lt Nat.and_le_left hx)

theorem and_not_testBit (reg mask i : Nat) :
    (and_not reg mask).testBit i = (reg.testBit i && !(mask.testBit i)) := by
  unfold and_not
  rw [Nat.testBit_xor, Nat.testBit_land]
  cases reg.testBit i <;> cases mask.testBit i <;> rfl

theorem to_bytes_be_two {m : Nat} (hm : m < 65536) :
    to_bytes_be m 2 = some [m >>> 8 &&& 255, m &&& 255] ∧
    (m >>> 8 &&& 255) * 256 + (m &&& 255) = m := by
  have h8 : m >>> 8 = m / 256 := by
    rw [Nat.shiftRight_eq_div_pow]
  have hmod : m &&& 255 = m % 256 := by
    have h := Nat.and_pow_two_sub_one_eq_mod m 8
    norm_num at h
    exact h
  have hdivlt : m / 256 < 256 := by omega
  have h8m : m >>> 8 &&& 255 = m / 256 := by
    have h := Nat.and_pow_two_sub_one_eq_mod (m >>> 8) 8
    norm_num at h
    rw [h, h8, Nat.mod_eq_of_lt hdivlt]
  constructor
  · unfold to_bytes_be
    rw [if_pos (show m < 256 ^ 2 by norm_num; exact hm)]
    norm_num [List.range_succ]
  · rw [h8m, hmod]
    omega

/-! ## Claim theorems -/

/-- C2 (counterexample): at `n = 2` payload bytes with `lsb_first = false`,
the read path's `reversed(range(n-1, -1, -1))` and the write path's
`range(0, n)` give the SAME index sequence `[0, 1]`, contradicting the claim
that the two iteration orders differ. -/
theorem C2_counterexample : get_order 2 false = set_order 2 false ∧ get_order 2 false = [0, 1] := by
  decide

/-- C2 (amended): for every number of payload bytes `n` and both values of
`lsb_first`, the read path's byte iteration order equals the write path's;
when `lsb_first = false` both are the ascending order `0, 1, ..., n-1`
(reversing the already-reversed range yields the plain range), so the two
code paths assemble the register bytes identically. -/
theorem C2_orders_coincide (n : Nat) (b : Bool) :
    get_order n b = set_order n b ∧ get_order n false = List.range n := by
  constructor
  · cases b <;> simp [get_order, set_order]
  · simp [get_order]

/-- C3: the `gain` setter raises `ValueError("Invalid GAIN setting")` exactly
when the requested value is outside `{1, ..., 7}` (so it rejects `8`, every
negative value, and `0`), and when it raises, the device state is returned
unchanged: no payload is written to the bus. -/
theorem C3_gain_setter_validation (st : DevState) (value : Int) :
    ((MLX90393.gain_setter st value).1 = some ("Invalid GAIN setting") ↔
      value ∉ ([1, 2, 3, 4, 5, 6, 7] : List Int)) ∧
    (value ∉ ([1, 2, 3, 4, 5, 6, 7] : List Int) →
      MLX90393.gain_setter st value = (some ("Invalid GAIN setting"), st)) := by
  have hmem : (value ∈ ([1, 2, 3, 4, 5, 6, 7] : List Int)) ↔ (1 ≤ value ∧ value < 8) := by
    simp only [List.mem_cons, List.not_mem_nil, or_false]
    omega
  by_cases h : 1 ≤ value ∧ value < 8
  · have hin : value ∈ ([1, 2, 3, 4, 5, 6, 7] : List Int) := hmem.mpr h
    have hset : MLX90393.gain_setter st value =
        (match CBits.set_op MLX90393._gain st value.toNat with
          | some st1 => (none, st1)
          | none => (some ("BusError"), st)) := by
      unfold MLX90393.gain_setter
      rw [if_neg (not_not_intro h)]
    refine ⟨iff_of_false ?_ (not_not_intro hin), fun hn => absurd hin hn⟩
    rw [hset]
    cases hcase : CBits.set_op MLX90393._gain st value.toNat <;> simp [hcase]
  · have hnin : value ∉ ([1, 2, 3, 4, 5, 6, 7] : List Int) := fun hc => h (hmem.mp hc)
    have hset : MLX90393.gain_setter st value = (some ("Invalid GAIN setting"), st) := by
      unfold MLX90393.gain_setter
      rw [if_pos h]
    exact ⟨iff_of_true (by rw [hset]) hnin, fun _ => hset⟩

/-- C3 (witness): at `value = 8` the gain setter raises the invalid-argument
error and leaves the device state untouched. -/
theorem C3_witness :
    MLX90393.gain_setter ⟨[], [], none⟩ 8 = (some ("Invalid GAIN setting"), ⟨[], [], none⟩) :=
  (C3_gain_setter_validation ⟨[], [], none⟩ 8).2 (by decide)

theorem get_op_inv {c : CBits} {st : DevState} {val : Nat} {st1 : DevState}
    (hop : CBits.get_op c st = some (val, st1)) :
    ∃ d rest, st.responses = d :: rest ∧ d.length = c.lenght ∧ val = c.get_value d ∧
      st1 = ⟨rest, st.written ++ [[c.cmd_read, c.register <<< 2]], st.status_last⟩ := by
  unfold CBits.get_op at hop
  split at hop
  · exact absurd hop (by simp)
  · rename_i payload hcb
    have hpl : payload = [c.cmd_read, c.register <<< 2] := by
      unfold checkBytes at hcb
      split at hcb
      · exact (Option.some.injEq _ _ ▸ hcb).symm
      · exact absurd hcb (by simp)
    subst hpl
    unfold readfrom writeto at hop
    simp only at hop
    split at hop
    · exact absurd hop (by simp)
    · rename_i d st2 hresp
      simp only [Option.some.injEq, Prod.mk.injEq] at hop
      obtain ⟨hval, hst⟩ := hop
      split at hresp
      · exact absurd hresp (by simp)
      · rename_i d0 rest0 hr
        split at hresp
        · rename_i hlen
          simp only [Option.some.injEq, Prod.mk.injEq] at hresp
          obtain ⟨hd, hstate⟩ := hresp
          subst hd
          exact ⟨d0, rest0, hr, hlen, hval.symm ▸ rfl, by rw [← hst, ← hstate]⟩
        · exact absurd hresp (by simp)

theorem writeto_responses (st : DevState) (p : List Nat) :
    (writeto st p).responses = st.responses := rfl

theorem readfrom_inv {st : DevState} {n : Nat} {d : List Nat} {st2 : DevState}
    (h : readfrom st n = some (d, st2)) :
    ∃ rest, st.responses = d :: rest ∧ d.length = n ∧
      st2 = ⟨rest, st.written, st.status_last⟩ := by
  unfold readfrom at h
  split at h
  · exact absurd h (by simp)
  · rename_i r rest hr
    split at h
    · rename_i hlen
      simp only [Option.some.injEq, Prod.mk.injEq] at h
      exact ⟨rest, by rw [hr, h.1], h.1 ▸ hlen, h.2.symm⟩
    · exact absurd h (by simp)

theorem set_op_inv {c : CBits} {st : DevState} {value : Nat} {st1 : DevState}
    (hop : CBits.set_op c st value = some st1) :
    ∃ d1 d2 rest, st.responses = d1 :: d2 :: rest ∧ d1.length = c.lenght ∧
      d2.length = c.lenght ∧ st1.status_last = some (d2.getD 0 0) := by
  unfold CBits.set_op at hop
  split at hop
  · exact absurd hop (by simp)
  · rename_i payload0 hcb
    simp only at hop
    split at hop
    · exact absurd hop (by simp)
    · rename_i data stA hresp1
      split at hop
      · exact absurd hop (by simp)
      · rename_i regb htb
        split at hop
        · exact absurd hop (by simp)
        · rename_i payload hcb2
          split at hop
          · exact absurd hop (by simp)
          · rename_i data2 stB hresp2
            simp only [Option.some.injEq] at hop
            obtain ⟨rest1, hr1, hlen1, hstA⟩ := readfrom_inv hresp1
            obtain ⟨rest2, hr2, hlen2, hstB⟩ := readfrom_inv hresp2
            refine ⟨data, data2, rest2, ?_, hlen1, hlen2, ?_⟩
            · rw [writeto_responses] at hr1
              rw [writeto_responses, hstA] at hr2
              simp only at hr2
              rw [hr1, hr2]
            · rw [← hop]

theorem reg_get_op_inv {r : RegisterStructCMD} {st : DevState} {val : Nat} {st1 : DevState}
    (hop : RegisterStructCMD.get_op r st = some (val, st1)) :
    ∃ d rest, st.responses = d :: rest ∧ d.length = r.lenght ∧ d.length = 3 ∧
      val = d.getD 1 0 * 256 + d.getD 2 0 ∧ st1.status_last = some (d.getD 0 0) := by
  unfold RegisterStructCMD.get_op at hop
  split at hop
  · exact absurd hop (by simp)
  · rename_i payload hcb
    simp only at hop
    split at hop
    · exact absurd hop (by simp)
    · rename_i data stA hresp
      split at hop
      · exact absurd hop (by simp)
      · rename_i status v hup
        simp only [Option.some.injEq, Prod.mk.injEq] at hop
        unfold unpack_BH at hup
        split at hup
        · rename_i h3
          simp only [Option.some.injEq, Prod.mk.injEq] at hup
          obtain ⟨rest, hr, hlen, hstA⟩ := readfrom_inv hresp
          rw [writeto_responses] at hr
          refine ⟨data, rest, hr, hlen, h3, ?_, ?_⟩
          · rw [← hop.1, ← hup.2]
          · rw [← hop.2]
            simp only
            rw [← hup.1]
        · exact absurd hup (by simp)

theorem reg_set_op_inv {r : RegisterStructCMD} {st : DevState} {value : Nat} {st1 : DevState}
    (hop : RegisterStructCMD.set_op r st value = some st1) :
    ∃ d rest, st.responses = d :: rest ∧ d.length = r.lenght ∧
      st1.status_last = some (d.getD 0 0) := by
  unfold RegisterStructCMD.set_op at hop
  split at hop
  · exact absurd hop (by simp)
  · rename_i payload hcb
    simp only at hop
    split at hop
    · exact absurd hop (by simp)
    · rename_i data stA hresp
      simp only [Option.some.injEq] at hop
      obtain ⟨rest, hr, hlen, hstA⟩ := readfrom_inv hresp
      rw [writeto_responses] at hr
      exact ⟨data, rest, hr, hlen, by rw [← hop]⟩

/-- C1 (counterexample): a successful bit-field read (`CBits.__get__`) does
NOT update `_status_last`: with `_status_last = 99` and a response whose
first (status) byte is `7`, the read succeeds yet `_status_last` stays `99`. -/
theorem C1_counterexample :
    CBits.get_op MLX90393._gain ⟨[[7, 1, 2]], [], some 99⟩
        = some (0, ⟨[], [[80, 0]], some 99⟩) ∧
    (some 99 : Option Nat) ≠ some 7 := by
  decide

/-- C1 (amended): every successful bit-field write, whole-register read and
whole-register write updates `_status_last` to the first byte of the response
read back in that operation (for the bit-field write, the response to the
write command); the bit-field read (`CBits.__get__`), however, completes
without modifying `_status_last` at all. -/
theorem C1_status_last_amended :
    (∀ (c : CBits) (d1 d2 : List Nat) (rest w : List (List Nat)) (sl : Option Nat)
        (value : Nat) (st1 : DevState),
      CBits.set_op c ⟨d1 :: d2 :: rest, w, sl⟩ value = some st1 →
        st1.status_last = some (d2.getD 0 0)) ∧
    (∀ (r : RegisterStructCMD) (d : List Nat) (rest w : List (List Nat)) (sl : Option Nat)
        (val : Nat) (st1 : DevState),
      RegisterStructCMD.get_op r ⟨d :: rest, w, sl⟩ = some (val, st1) →
        st1.status_last = some (d.getD 0 0)) ∧
    (∀ (r : RegisterStructCMD) (d : List Nat) (rest w : List (List Nat)) (sl : Option Nat)
        (value : Nat) (st1 : DevState),
      RegisterStructCMD.set_op r ⟨d :: rest, w, sl⟩ value = some st1 →
        st1.status_last = some (d.getD 0 0)) ∧
    (∀ (c : CBits) (st : DevState) (val : Nat) (st1 : DevState),
      CBits.get_op c st = some (val, st1) → st1.status_last = st.status_last) := by
  refine ⟨?_, ?_, ?_, ?_⟩
  · intro c d1 d2 rest w sl value st1 hop
    obtain ⟨e1, e2, rest2, hresp, _, _, hstatus⟩ := set_op_inv hop
    simp only [List.cons.injEq] at hresp
    rw [hstatus, hresp.2.1]
  · intro r d rest w sl val st1 hop
    obtain ⟨e, rest2, hresp, _, _, _, hstatus⟩ := reg_get_op_inv hop
    simp only [List.cons.injEq] at hresp
    rw [hstatus, hresp.1]
  · intro r d rest w sl value st1 hop
    obtain ⟨e, rest2, hresp, _, hstatus⟩ := reg_set_op_inv hop
    simp only [List.cons.injEq] at hresp
    rw [hstatus, hresp.1]
  · intro c st val st1 hop
    obtain ⟨d, rest, _, _, _, hst1⟩ := get_op_inv hop
    rw [hst1]

/-- C1 (witness): concrete runs of the three updating operations and of the
non-updating bit-field read, with the theorem's hypotheses discharged by
evaluation. -/
theorem C1_witness :
    (⟨[], [[80, 0], [96, 0, 48, 0]], some 7⟩ : DevState).status_last = some 7 ∧
    (⟨[], [[80, 8]], some 1⟩ : DevState).status_last = some 1 ∧
    (⟨[], [[96, 171, 205, 8]], some 5⟩ : DevState).status_last = some 5 ∧
    (⟨[], [[80, 0]], some 99⟩ : DevState).status_last = (⟨[[7, 1, 2]], [], some 99⟩ : DevState).status_last := by
  refine ⟨?_, ?_, ?_, ?_⟩
  · exact C1_status_last_amended.1 MLX90393._gain [9, 0, 0] [7, 0, 0] [] [] none 3 _ (by decide)
  · exact C1_status_last_amended.2.1 (RegisterStructCMD.init 2 ("H") 80 96) [1, 2, 3] [] [] none
      515 _ (by decide)
  · exact C1_status_last_amended.2.2.1 (RegisterStructCMD.init 2 ("H") _CMD_RR _CMD_WR)
      [5, 0, 0] [] [] none 43981 _ (by decide)
  · exact C1_status_last_amended.2.2.2 MLX90393._gain ⟨[[7, 1, 2]], [], some 99⟩ 0 _ (by decide)

/-- C7: for every field geometry with `start_bit + num_bits ≤ 16`, the mask
computed at construction equals `((1 << num_bits) - 1) << start_bit`, and a
successful bit-field read returns `(assembled & mask) >> start_bit`, where
`assembled` is the integer assembled from the response bytes after dropping
the leading status byte. -/
theorem C7_mask_and_field_read (nb ra sb : Nat) (b : Bool) (cr cw val : Nat)
    (d : List Nat) (rest w : List (List Nat)) (sl : Option Nat) (st1 : DevState)
    (h : sb + nb ≤ 16) :
    (CBits.init nb ra sb 2 b cr cw).bit_mask = ((1 <<< nb) - 1) <<< sb ∧
    (CBits.get_op (CBits.init nb ra sb 2 b cr cw) ⟨d :: rest, w, sl⟩ = some (val, st1) →
      val = (CBits.assembled_get (CBits.init nb ra sb 2 b cr cw) d
          &&& (((1 <<< nb) - 1) <<< sb)) >>> sb) := by
  refine ⟨rfl, fun hop => ?_⟩
  obtain ⟨e, rest2, hresp, _, hval, _⟩ := get_op_inv hop
  simp only [List.cons.injEq] at hresp
  rw [hval, hresp.1]
  rfl

/-- C7 (witness): the gain field geometry `(num_bits = 3, start_bit = 4)` with
the response `[0, 0, 80]`: mask `0b0111_0000` and field value `5`. -/
theorem C7_witness :
    (CBits.init 3 0 4 2 false 80 96).bit_mask = ((1 <<< 3) - 1) <<< 4 ∧
    (5 : Nat) = (CBits.assembled_get (CBits.init 3 0 4 2 false 80 96) [0, 0, 80]
        &&& (((1 <<< 3) - 1) <<< 4)) >>> 4 := by
  refine ⟨?_, ?_⟩
  · exact (C7_mask_and_field_read 3 0 4 false 80 96 5 [0, 0, 80] [] [] none
      ⟨[], [[80, 0]], none⟩ (by decide)).1
  · exact (C7_mask_and_field_read 3 0 4 false 80 96 5 [0, 0, 80] [] [] none
      ⟨[], [[80, 0]], none⟩ (by decide)).2 (by decide)

/-- C8: whenever the raw 3-bit gain field extracted from the bus response is
`r`, the gain getter returns the `r`-th label of the ordered table
`["GAIN_5X", "GAIN_4X", "GAIN_3X", "GAIN_2_5X", "GAIN_2X", "GAIN_1_67X",
"GAIN_1_33X", "GAIN_1X"]`; in particular it returns `"GAIN_1_67X"` when the
raw field equals `5`. -/
theorem C8_gain_getter_table (data : List Nat) (r : Nat)
    (h : MLX90393._gain.get_value data = r) :
    MLX90393.gain_getter data
        = [("GAIN_5X"), ("GAIN_4X"), ("GAIN_3X"), ("GAIN_2_5X"), ("GAIN_2X"),
           ("GAIN_1_67X"), ("GAIN_1_33X"), ("GAIN_1X")][r]? ∧
    (r = 5 → MLX90393.gain_getter data = some ("GAIN_1_67X")) := by
  constructor
  · unfold MLX90393.gain_getter
    rw [h]
    rfl
  · intro h5
    unfold MLX90393.gain_getter
    rw [h, h5]
    rfl

/-- C8 (witness): the response `[0, 0, 80]` carries raw gain code `5` and the
getter returns `"GAIN_1_67X"`. -/
theorem C8_witness : MLX90393.gain_getter [0, 0, 80] = some ("GAIN_1_67X") :=
  (C8_gain_getter_table [0, 0, 80] 5 (by decide)).2 rfl

/-- C10: for every bus response, the raw gain field `(assembled & mask) >> 4`
with `num_bits = 3` is at most `7`, so indexing the 8-element gain label
table never fails. -/
theorem C10_gain_index_in_bounds (data : List Nat) :
    MLX90393._gain.get_value data ≤ 7 ∧ (MLX90393.gain_getter data).isSome = true := by
  have hle : MLX90393._gain.get_value data ≤ 7 := by
    have h1 : MLX90393._gain.get_value data
        = (CBits.assembled_get MLX90393._gain data &&& 112) >>> 4 := rfl
    have h2 : CBits.assembled_get MLX90393._gain data &&& 112 ≤ 112 := Nat.and_le_right
    rw [h1, Nat.shiftRight_eq_div_pow]
    calc (CBits.assembled_get MLX90393._gain data &&& 112) / 2 ^ 4
        ≤ 112 / 2 ^ 4 := Nat.div_le_div_right h2
      _ = 7 := by norm_num
  refine ⟨hle, ?_⟩
  unfold MLX90393.gain_getter
  have hlen : gain_values.length = 8 := rfl
  rw [List.getElem?_eq_getElem (by omega)]
  rfl

/-- C4 (counterexample): the write path does not mask `value`, so a value
wider than the field spills outside the mask: for the gain field
(`num_bits = 3`, `start_bit = 4`, mask `112`) with current register `0` and
`value = 8`, the merged register is `128`, whose bit `7` — outside the mask —
differs from the register value obtained by the read step. -/
theorem C4_counterexample :
    CBits.set_reg_value MLX90393._gain [0, 0, 0] 8 = 128 ∧
    MLX90393._gain.bit_mask.testBit 7 = false ∧
    (CBits.set_reg_value MLX90393._gain [0, 0, 0] 8).testBit 7 = true ∧
    (CBits.assembled_set MLX90393._gain [0, 0, 0]).testBit 7 = false := by
  decide

/-- C4 (amended): for every bit-field write whose value fits the field
(`value < 2 ^ num_bits`), every register bit outside the mask
`((1 << num_bits) - 1) << start_bit` keeps, in the merged register value, the
value it had in the register obtained by the preceding read step; and the two
bytes written back to the bus are exactly the big-endian encoding of that
merged value. -/
theorem C4_frame_amended (nb ra sb : Nat) (b : Bool) (cr cw : Nat) (data : List Nat)
    (value : Nat) (hv : value < 2 ^ nb) :
    (∀ i, (CBits.init nb ra sb 2 b cr cw).bit_mask.testBit i = false →
      (CBits.set_reg_value (CBits.init nb ra sb 2 b cr cw) data value).testBit i
        = (CBits.assembled_set (CBits.init nb ra sb 2 b cr cw) data).testBit i) ∧
    (CBits.set_reg_value (CBits.init nb ra sb 2 b cr cw) data value < 65536 →
      to_bytes_be (CBits.set_reg_value (CBits.init nb ra sb 2 b cr cw) data value) 2
        = some [CBits.set_reg_value (CBits.init nb ra sb 2 b cr cw) data value >>> 8 &&& 255,
                CBits.set_reg_value (CBits.init nb ra sb 2 b cr cw) data value &&& 255] ∧
      (CBits.set_reg_value (CBits.init nb ra sb 2 b cr cw) data value >>> 8 &&& 255) * 256
          + (CBits.set_reg_value (CBits.init nb ra sb 2 b cr cw) data value &&& 255)
        = CBits.set_reg_value (CBits.init nb ra sb 2 b cr cw) data value) := by
  constructor
  · intro i hmask
    have hmask' : (CBits.init nb ra sb 2 b cr cw).bit_mask = ((1 <<< nb) - 1) <<< sb := rfl
    rw [hmask', Nat.one_shiftLeft, Nat.testBit_shiftLeft ((2 : Nat) ^ nb - 1),
      Nat.testBit_two_pow_sub_one] at hmask
    show (and_not (CBits.assembled_set (CBits.init nb ra sb 2 b cr cw) data)
        (((1 <<< nb) - 1) <<< sb) ||| (value <<< sb)).testBit i = _
    rw [Nat.testBit_lor, and_not_testBit, Nat.one_shiftLeft,
      Nat.testBit_shiftLeft ((2 : Nat) ^ nb - 1), Nat.testBit_two_pow_sub_one,
      Nat.testBit_shiftLeft value]
    rw [hmask]
    by_cases hsb : sb ≤ i
    · have hge : nb ≤ i - sb := by
        rcases Bool.and_eq_false_iff.mp hmask with hc | hc
        · exact absurd hsb (by simpa using hc)
        · simpa using hc
      have hvbit : value.testBit (i - sb) = false :=
        Nat.testBit_eq_false_of_lt
          (Nat.lt_of_lt_of_le hv (Nat.pow_le_pow_right (by norm_num) hge))
      simp [hvbit]
    · simp [hsb]
  · intro hlt
    exact to_bytes_be_two hlt

/-- C4 (witness): gain field geometry, in-range value `3` over an all-zero
register: bit `7` outside the mask is preserved, and the merged value `48` is
encoded big-endian as the bytes written back. -/
theorem C4_witness :
    (CBits.set_reg_value (CBits.init 3 0 4 2 false 80 96) [0, 0, 0] 3).testBit 7
      = (CBits.assembled_set (CBits.init 3 0 4 2 false 80 96) [0, 0, 0]).testBit 7 ∧
    to_bytes_be (CBits.set_reg_value (CBits.init 3 0 4 2 false 80 96) [0, 0, 0] 3) 2
      = some [CBits.set_reg_value (CBits.init 3 0 4 2 false 80 96) [0, 0, 0] 3 >>> 8 &&& 255,
              CBits.set_reg_value (CBits.init 3 0 4 2 false 80 96) [0, 0, 0] 3 &&& 255] := by
  constructor
  · exact (C4_frame_amended 3 0 4 false 80 96 [0, 0, 0] 3 (by decide)).1 7 (by decide)
  · exact ((C4_frame_amended 3 0 4 false 80 96 [0, 0, 0] 3 (by decide)).2 (by decide)).1

/-- C5: for every format string the whole-register accessor is constructed
with, it reads `calcsize(format) + 1` bytes, and a read sends the 2-byte
command `[READ_opcode, register_address << 2]` and decodes the response with
the fixed format `>BH` — first byte as status, next two bytes as a big-endian
unsigned 16-bit integer — regardless of the format parameter. -/
theorem C5_fixed_format (form : String) (addr cr cw : Nat) (d : List Nat)
    (rest w : List (List Nat)) (sl : Option Nat) :
    (RegisterStructCMD.init addr form cr cw).lenght = calcsize form + 1 ∧
    (cr < 256 → addr <<< 2 < 256 → d.length = calcsize form + 1 → d.length = 3 →
      RegisterStructCMD.get_op (RegisterStructCMD.init addr form cr cw) ⟨d :: rest, w, sl⟩
        = some (d.getD 1 0 * 256 + d.getD 2 0,
                ⟨rest, w ++ [[cr, addr <<< 2]], some (d.getD 0 0)⟩)) := by
  refine ⟨rfl, fun hcr haddr hd h3 => ?_⟩
  unfold RegisterStructCMD.get_op
  have hcb : checkBytes [cr, addr <<< 2] = some [cr, addr <<< 2] := by
    unfold checkBytes
    rw [if_pos]
    simp [hcr, haddr]
  rw [show (RegisterStructCMD.init addr form cr cw).cmd_read = cr from rfl,
      show (RegisterStructCMD.init addr form cr cw).register = addr from rfl, hcb]
  have hrf : readfrom (writeto ⟨d :: rest, w, sl⟩ [cr, addr <<< 2])
      (RegisterStructCMD.init addr form cr cw).lenght
      = some (d, ⟨rest, w ++ [[cr, addr <<< 2]], sl⟩) := by
    unfold readfrom writeto
    simp only
    rw [if_pos (by rw [hd]; rfl)]
  simp only
  rw [hrf]
  have hup : unpack_BH d = some (d.getD 0 0, d.getD 1 0 * 256 + d.getD 2 0) := by
    unfold unpack_BH
    rw [if_pos h3]
  simp only
  rw [hup]

/-- C5 (witness): format `"H"`, register `0x02`, read opcode `80`, response
`[1, 2, 3]`: three bytes are read, the command is `[80, 8]`, and the decode is
status `1` and big-endian value `2 * 256 + 3 = 515`. -/
theorem C5_witness :
    (RegisterStructCMD.init 2 ("H") 80 96).lenght = calcsize ("H") + 1 ∧
    RegisterStructCMD.get_op (RegisterStructCMD.init 2 ("H") 80 96) ⟨[[1, 2, 3]], [], none⟩
      = some (515, ⟨[], [[80, 8]], some 1⟩) := by
  constructor
  · exact (C5_fixed_format ("H") 2 80 96 [1, 2, 3] [] [] none).1
  · exact (C5_fixed_format ("H") 2 80 96 [1, 2, 3] [] [] none).2
      (by decide) (by decide) (by decide) (by decide)

/-- C6: over the claim's register model — a write command
`[WRITE_opcode, v >> 8, v & 0xFF, addr << 2]` stores the two data bytes at
`addr` — writing a 16-bit value `v` with the whole-register accessor and then
reading the same register back returns exactly `v`, independent of the
register's previous contents (no read-modify-write merging). -/
theorem C6_roundtrip (v addr s1 x y s2 : Nat) (regs : Nat → Nat × Nat)
    (hv : v < 65536) (ha : addr < 64) :
    RegisterStructCMD.set_op (RegisterStructCMD.init addr ("H") _CMD_RR _CMD_WR)
        ⟨[[s1, x, y]], [], none⟩ v
      = some ⟨[], [[_CMD_WR, v >>> 8, v &&& 0xFF, addr <<< 2]], some s1⟩ ∧
    regStore regs [_CMD_WR, v >>> 8, v &&& 0xFF, addr <<< 2] addr = (v >>> 8, v &&& 0xFF) ∧
    RegisterStructCMD.get_op (RegisterStructCMD.init addr ("H") _CMD_RR _CMD_WR)
        ⟨[[s2, (regStore regs [_CMD_WR, v >>> 8, v &&& 0xFF, addr <<< 2] addr).1,
               (regStore regs [_CMD_WR, v >>> 8, v &&& 0xFF, addr <<< 2] addr).2]], [], none⟩
      = some (v, ⟨[], [[_CMD_RR, addr <<< 2]], some s2⟩) := by
  have h8 : v >>> 8 = v / 256 := by rw [Nat.shiftRight_eq_div_pow]
  have hmod : v &&& 0xFF = v % 256 := by
    have h := Nat.and_pow_two_sub_one_eq_mod v 8
    norm_num at h
    exact h
  have hv8 : v >>> 8 < 256 := by omega
  have hvFF : v &&& 0xFF < 256 := by omega
  have haddr : addr <<< 2 < 256 := by
    rw [Nat.shiftLeft_eq]
    norm_num
    omega
  have hstore : regStore regs [_CMD_WR, v >>> 8, v &&& 0xFF, addr <<< 2] addr
      = (v >>> 8, v &&& 0xFF) := by
    unfold regStore
    simp
  refine ⟨?_, hstore, ?_⟩
  · unfold RegisterStructCMD.set_op
    have hcb : checkBytes [(RegisterStructCMD.init addr ("H") _CMD_RR _CMD_WR).cmd_write,
        v >>> 8, v &&& 0xFF, (RegisterStructCMD.init addr ("H") _CMD_RR _CMD_WR).register <<< 2]
        = some [_CMD_WR, v >>> 8, v &&& 0xFF, addr <<< 2] := by
      unfold checkBytes
      rw [if_pos]
      · rfl
      · simp only [List.all_cons, List.all_nil, Bool.and_true, Bool.and_eq_true,
          decide_eq_true_eq]
        exact ⟨(by norm_num : (96 : Nat) < 256), hv8, hvFF, haddr⟩
    rw [hcb]
    have hrf : readfrom (writeto ⟨[[s1, x, y]], [], none⟩
          [_CMD_WR, v >>> 8, v &&& 0xFF, addr <<< 2])
        (RegisterStructCMD.init addr ("H") _CMD_RR _CMD_WR).lenght
        = some ([s1, x, y], ⟨[], [[_CMD_WR, v >>> 8, v &&& 0xFF, addr <<< 2]], none⟩) := by
      unfold readfrom writeto
      simp only
      rw [if_pos (by rfl)]
      rfl
    simp only
    rw [hrf]
    rfl
  · unfold RegisterStructCMD.get_op
    rw [hstore]
    have hcb : checkBytes [(RegisterStructCMD.init addr ("H") _CMD_RR _CMD_WR).cmd_read,
        (RegisterStructCMD.init addr ("H") _CMD_RR _CMD_WR).register <<< 2]
        = some [_CMD_RR, addr <<< 2] := by
      unfold checkBytes
      rw [if_pos]
      · rfl
      · simp only [List.all_cons, List.all_nil, Bool.and_true, Bool.and_eq_true,
          decide_eq_true_eq]
        exact ⟨(by norm_num : (80 : Nat) < 256), haddr⟩
    rw [hcb]
    have hrf : readfrom (writeto ⟨[[s2, v >>> 8, v &&& 0xFF]], [], none⟩
          [_CMD_RR, addr <<< 2])
        (RegisterStructCMD.init addr ("H") _CMD_RR _CMD_WR).lenght
        = some ([s2, v >>> 8, v &&& 0xFF], ⟨[], [[_CMD_RR, addr <<< 2]], none⟩) := by
      unfold readfrom writeto
      simp only
      rw [if_pos (by rfl)]
      rfl
    simp only
    rw [hrf]
    have hup : unpack_BH [s2, v >>> 8, v &&& 0xFF]
        = some (s2, (v >>> 8) * 256 + (v &&& 0xFF)) := by
      unfold unpack_BH
      rw [if_pos (by rfl)]
      rfl
    simp only
    rw [hup]
    have hval : (v >>> 8) * 256 + (v &&& 0xFF) = v := by omega
    rw [hval]

/-- C6 (witness): `v = 0xABCD` at register `0x02` over an all-zero register
file: the write stores bytes `(171, 205)` and the read returns `0xABCD`. -/
theorem C6_witness :
    RegisterStructCMD.set_op (RegisterStructCMD.init 2 ("H") _CMD_RR _CMD_WR)
        ⟨[[5, 0, 0]], [], none⟩ 43981
      = some ⟨[], [[96, 171, 205, 8]], some 5⟩ ∧
    regStore (fun _ => (0, 0)) [96, 171, 205, 8] 2 = (171, 205) ∧
    RegisterStructCMD.get_op (RegisterStructCMD.init 2 ("H") _CMD_RR _CMD_WR)
        ⟨[[9, 171, 205]], [], none⟩
      = some (43981, ⟨[], [[80, 8]], some 9⟩) :=
  C6_roundtrip 43981 2 5 0 0 9 (fun _ => (0, 0)) (by decide) (by decide)

/-- C9 (counterexample): the claim that every integer value is accepted and
performed fails at `value = 65536`: the merged register no longer fits in the
two bytes of `reg.to_bytes(2, "big")`, so the write raises `OverflowError`
(modelled `none`) instead of being performed — no validation error is
involved. -/
theorem C9_counterexample :
    CBits.set_op MLX90393._hall ⟨[[0, 0, 0], [0, 0, 0]], [], none⟩ 65536 = none := by
  decide

/-- C9 (amended): `_hall` is a 4-bit field at `start_bit = 0` of register
`0x00` with the same read-modify-write accessor as `_gain`, and its setter
performs no value-range validation: every write whose value is representable
in the 16-bit register (`value < 2 ^ 16`) is accepted and performed, without
any bounds check against the field's declared 4-bit width.  (Values outside
the register range fail at the byte-encoding step, not by validation.) -/
theorem C9_hall_amended (s1 b1 c1 s2 b2 c2 : Nat) (rest w : List (List Nat)) (sl : Option Nat)
    (value : Nat) (hb1 : b1 < 256) (hc1 : c1 < 256) (hv : value < 65536) :
    MLX90393._hall.bit_mask = 15 ∧ MLX90393._hall.star_bit = 0 ∧
    MLX90393._hall.register = 0 ∧ MLX90393._hall.lenght = 3 ∧
    ∃ st1, CBits.set_op MLX90393._hall ⟨[s1, b1, c1] :: [s2, b2, c2] :: rest, w, sl⟩ value
      = some st1 := by
  refine ⟨rfl, rfl, rfl, rfl, ?_⟩
  have h256 : (256 : Nat) = 2 ^ 8 := by norm_num
  have hA : CBits.assembled_set MLX90393._hall [s1, b1, c1] = b1 <<< 8 ||| c1 := by
    show (0 <<< 8 ||| b1) <<< 8 ||| c1 = b1 <<< 8 ||| c1
    rw [Nat.zero_shiftLeft, Nat.zero_or]
  have hAlt : CBits.assembled_set MLX90393._hall [s1, b1, c1] < 2 ^ 16 := by
    rw [hA]
    have h := Nat.append_lt (h256 ▸ hc1) (h256 ▸ hb1)
    simpa using h
  have hm : CBits.set_reg_value MLX90393._hall [s1, b1, c1] value < 65536 := by
    have h1 : and_not (CBits.assembled_set MLX90393._hall [s1, b1, c1])
        MLX90393._hall.bit_mask < 2 ^ 16 := and_not_lt MLX90393._hall.bit_mask hAlt
    have h2 : value <<< MLX90393._hall.star_bit < 2 ^ 16 := by
      show value <<< 0 < 2 ^ 16
      rw [Nat.shiftLeft_zero]
      exact (by norm_num : (65536 : Nat) = 2 ^ 16) ▸ hv
    exact lt_of_lt_of_eq (lor_lt_pow h1 h2) (by norm_num)
  obtain ⟨htb, _⟩ := to_bytes_be_two hm
  have hb0lt : CBits.set_reg_value MLX90393._hall [s1, b1, c1] value >>> 8 &&& 255 < 256 :=
    Nat.lt_of_le_of_lt Nat.and_le_right (by norm_num)
  have hb1lt : CBits.set_reg_value MLX90393._hall [s1, b1, c1] value &&& 255 < 256 :=
    Nat.lt_of_le_of_lt Nat.and_le_right (by norm_num)
  have hrun : CBits.set_op MLX90393._hall ⟨[s1, b1, c1] :: [s2, b2, c2] :: rest, w, sl⟩ value
      = some ⟨rest,
          (w ++ [[MLX90393._hall.cmd_read, MLX90393._hall.register <<< 2]])
            ++ [[96, CBits.set_reg_value MLX90393._hall [s1, b1, c1] value >>> 8 &&& 255,
                 CBits.set_reg_value MLX90393._hall [s1, b1, c1] value &&& 255, 0]],
          some s2⟩ := ?_
  · exact ⟨_, hrun⟩
  unfold CBits.set_op
  have hcb0 : checkBytes [MLX90393._hall.cmd_read, MLX90393._hall.register <<< 2]
      = some [MLX90393._hall.cmd_read, MLX90393._hall.register <<< 2] := by decide
  rw [hcb0]
  simp only
  have hrf1 : readfrom (writeto ⟨[s1, b1, c1] :: [s2, b2, c2] :: rest, w, sl⟩
        [MLX90393._hall.cmd_read, MLX90393._hall.register <<< 2]) MLX90393._hall.lenght
      = some ([s1, b1, c1],
          ⟨[s2, b2, c2] :: rest,
           w ++ [[MLX90393._hall.cmd_read, MLX90393._hall.register <<< 2]], sl⟩) := by
    unfold readfrom writeto
    simp only
    rw [if_pos (by rfl)]
  rw [hrf1]
  simp only
  have hlen1 : MLX90393._hall.lenght - 1 = 2 := rfl
  rw [hlen1, htb]
  simp only
  have hcb2 : checkBytes (((((List.replicate (MLX90393._hall.lenght + 1) 0).set 0
        MLX90393._hall.cmd_write).set 3 (MLX90393._hall.register <<< 2)).set 1
        (CBits.set_reg_value MLX90393._hall [s1, b1, c1] value >>> 8 &&& 255)).set 2
        (CBits.set_reg_value MLX90393._hall [s1, b1, c1] value &&& 255))
      = some [96, CBits.set_reg_value MLX90393._hall [s1, b1, c1] value >>> 8 &&& 255,
              CBits.set_reg_value MLX90393._hall [s1, b1, c1] value &&& 255, 0] := by
    show checkBytes [96, CBits.set_reg_value MLX90393._hall [s1, b1, c1] value >>> 8 &&& 255,
        CBits.set_reg_value MLX90393._hall [s1, b1, c1] value &&& 255, 0] = _
    unfold checkBytes
    rw [if_pos]
    simp only [List.all_cons, List.all_nil, Bool.and_true, Bool.and_eq_true,
      decide_eq_true_eq]
    exact ⟨by norm_num, hb0lt, hb1lt, by norm_num⟩
  simp only [List.getD_cons_zero, List.getD_cons_succ]
  rw [hcb2]
  simp only
  have hrf2 : readfrom (writeto ⟨[s2, b2, c2] :: rest,
        w ++ [[MLX90393._hall.cmd_read, MLX90393._hall.register <<< 2]], sl⟩
        [96, CBits.set_reg_value MLX90393._hall [s1, b1, c1] value >>> 8 &&& 255,
         CBits.set_reg_value MLX90393._hall [s1, b1, c1] value &&& 255, 0])
      MLX90393._hall.lenght
      = some ([s2, b2, c2],
          ⟨rest,
           (w ++ [[MLX90393._hall.cmd_read, MLX90393._hall.register <<< 2]])
             ++ [[96, CBits.set_reg_value MLX90393._hall [s1, b1, c1] value >>> 8 &&& 255,
                  CBits.set_reg_value MLX90393._hall [s1, b1, c1] value &&& 255, 0]], sl⟩) := by
    unfold readfrom writeto
    simp only
    rw [if_pos (by rfl)]
  rw [hrf2]
  rfl

/-- C9 (witness): a concrete in-range write (`value = 9`) on `_hall` is
accepted and performed. -/
theorem C9_witness :
    MLX90393._hall.bit_mask = 15 ∧ MLX90393._hall.star_bit = 0 ∧
    MLX90393._hall.register = 0 ∧ MLX90393._hall.lenght = 3 ∧
    ∃ st1, CBits.set_op MLX90393._hall ⟨[[1, 2, 3], [4, 5, 6]], [], none⟩ 9 = some st1 :=
  C9_hall_amended 1 2 3 4 5 6 [] [] none 9 (by decide) (by decide) (by decide)
